import Mathlib

/-!
Verification development for two components of the repository:

* `Canal`: a shallow embedding of `cdc/sink/codec/canal_flat.go` — the
  Canal-JSON flat-message encoder/decoder of the CDC sink.
* `Optimism`: a model of the optimistic shard-DDL coordinator exercised by
  `dm/dm/master/shardddl/optimist_test.go`.  The coordinator engine itself
  (lock table, schema joiner, reconciler) is not among the included sources,
  so those operations are modelled from the specification; each such
  definition carries a doc comment explaining what is modelled.

Machine integers are modelled as `Nat`/`Int` (no arithmetic in the claims
overflows), strings as `String`, Go maps as association lists, and fallible
code as `Option`/`Except`.
-/

namespace Canal

/-- A datum stored in a Canal flat message `data`/`old` entry: in the source a
`map[string]interface{}` whose values are "a string or nil". -/
abbrev Datum := Option String

/-- The `tidbExtension` record (`_tidb` JSON field): commit ts of an event or
watermark ts of a checkpoint.  A field the source omits stays `0`
(`omitempty`). -/
structure TidbExtension where
  CommitTs : Nat
  WatermarkTs : Nat
deriving DecidableEq

/-- The `canalFlatMessage` struct of the source, with Go slices/maps as lists
and association lists.  `ID` is the field documented as "ignored by
consumers". -/
structure CanalFlatMessage where
  ID : Int
  Schema : String
  Table : String
  PKNames : List String
  IsDDL : Bool
  EventType : String
  ExecutionTime : Int
  BuildTime : Int
  Query : String
  SQLType : List (String × Int)
  MySQLType : List (String × String)
  Data : List (List (String × Datum))
  Old : Option (List (List (String × Datum)))
  tikvTs : Nat
deriving DecidableEq

/-- A value of the `canalFlatMessageInterface` interface: either a plain
`canalFlatMessage` or a `canalFlatMessageWithTiDBExtension` (the embedded base
message plus the `Extensions` record). -/
inductive CanalFlatMsg
  | plain (m : CanalFlatMessage)
  | withExt (m : CanalFlatMessage) (ext : TidbExtension)
deriving DecidableEq

/-- The embedded base `canalFlatMessage` of an interface value. -/
def CanalFlatMsg.base : CanalFlatMsg → CanalFlatMessage
  | CanalFlatMsg.plain m => m
  | CanalFlatMsg.withExt m _ => m

/-- `getCommitTs`: the plain message "lost the commitTs" and returns `0`; the
extension variant returns `Extensions.CommitTs`. -/
def CanalFlatMsg.getCommitTs : CanalFlatMsg → Nat
  | CanalFlatMsg.plain _ => 0
  | CanalFlatMsg.withExt _ ext => ext.CommitTs

/-- `getSchema` of the interface. -/
def CanalFlatMsg.getSchema (c : CanalFlatMsg) : String := c.base.Schema

/-- `getTable` of the interface. -/
def CanalFlatMsg.getTable (c : CanalFlatMsg) : String := c.base.Table

/-- `getQuery` of the interface. -/
def CanalFlatMsg.getQuery (c : CanalFlatMsg) : String := c.base.Query

/-- `getMySQLType` of the interface. -/
def CanalFlatMsg.getMySQLType (c : CanalFlatMsg) : List (String × String) :=
  c.base.MySQLType

/-- `getJavaSQLType` of the interface (the `SQLType` field). -/
def CanalFlatMsg.getJavaSQLType (c : CanalFlatMsg) : List (String × Int) :=
  c.base.SQLType

/-- `getOld`: `nil` when `Old` is nil, otherwise `Old[0]`. -/
def CanalFlatMsg.getOld (c : CanalFlatMsg) : Option (List (String × Datum)) :=
  match c.base.Old with
  | Option.none => Option.none
  | Option.some l => l.head?

/-- `getData`: `nil` when `Data` is nil, otherwise `Data[0]`. -/
def CanalFlatMsg.getData (c : CanalFlatMsg) : Option (List (String × Datum)) :=
  c.base.Data.head?

/-- The `tidbWaterMarkType` constant. -/
def tidbWaterMarkType : String := "TIDB_WATERMARK"

/-- The `config.ProtocolCanalJSON` protocol tag (defined outside the included
sources; only its identity matters here). -/
def ProtocolCanalJSON : String := "canal-json"

/-- Modelled from the spec: `convertToCanalTs` lives in a source file not
included here; it derives the millisecond event time from a commit ts (the
physical part of the TSO).  Only the fact that `ExecutionTime` is a function
of the commit ts matters for the claims. -/
def convertToCanalTs (commitTs : Nat) : Int := Int.ofNat (commitTs >>> 18)

/-- One column of the canal row data, as produced by the canal entry builder
(`buildRowData`).  Modelled from the spec: the builder lives outside the
included sources; the encoder only reads `Name`, `SqlType`, `MysqlType`,
`GetIsNull()` and `Value`. -/
structure CanalColumn where
  Name : String
  SqlType : Int
  MysqlType : String
  IsNull : Bool
  Value : String
deriving DecidableEq

/-- The three row-changed event kinds the encoder distinguishes
(`IsDelete`/`IsInsert`/`IsUpdate`); any other kind panics in the source and is
therefore excluded from the model. -/
inductive RowEventType
  | ins
  | upd
  | del
deriving DecidableEq

/-- The `EventType.String()` value of a row event (via `convertRowEventType`,
outside the included sources). -/
def eventTypeString : RowEventType → String
  | RowEventType.ins => "INSERT"
  | RowEventType.upd => "UPDATE"
  | RowEventType.del => "DELETE"

/-- The parts of a `model.RowChangedEvent` the encoder reads.  Modelled from
the spec: the event type and the canal entry builder are outside the included
sources, so the event carries the already-built header names, primary-key
names and before/after column rows. -/
structure RowChangedEvent where
  CommitTs : Nat
  SchemaName : String
  TableName : String
  eventType : RowEventType
  pkNames : List String
  BeforeColumns : List CanalColumn
  AfterColumns : List CanalColumn
deriving DecidableEq

/-- The parts of a `model.DDLEvent` the encoder reads; `eventTypeName` is the
string of `convertDdlEventType(e)` (outside the included sources). -/
structure DDLEvent where
  CommitTs : Nat
  SchemaName : String
  TableName : String
  Query : String
  eventTypeName : String
deriving DecidableEq

/-- The datum of a column: `nil` when the column `GetIsNull()`, else its
value. -/
def datumOf (c : CanalColumn) : Datum :=
  if c.IsNull then Option.none else Option.some c.Value

/-- The `data`/`oldData` map built from a column row. -/
def colsToMap (cols : List CanalColumn) : List (String × Datum) :=
  cols.map (fun c => (c.Name, datumOf c))

/-- `newFlatMessageForDML` of the source.  `now` stands for
`time.Now().UnixNano() / 1e6` (the only impure input).  The `ID` field is set
to `0` ("ignored by both Canal Adapter and Flink"). -/
def newFlatMessageForDML (enableTiDBExtension : Bool) (now : Int)
    (e : RowChangedEvent) : CanalFlatMsg :=
  let nonTrivialRow :=
    if e.eventType = RowEventType.del then e.BeforeColumns else e.AfterColumns
  let sqlType := nonTrivialRow.map (fun c => (c.Name, c.SqlType))
  let mysqlType := nonTrivialRow.map (fun c => (c.Name, c.MysqlType))
  let oldData := colsToMap e.BeforeColumns
  let data := colsToMap e.AfterColumns
  let base : CanalFlatMessage :=
    { ID := 0
      Schema := e.SchemaName
      Table := e.TableName
      PKNames := e.pkNames
      IsDDL := false
      EventType := eventTypeString e.eventType
      ExecutionTime := convertToCanalTs e.CommitTs
      BuildTime := now
      Query := ""
      SQLType := sqlType
      MySQLType := mysqlType
      Data := []
      Old := Option.none
      tikvTs := e.CommitTs }
  let base :=
    match e.eventType with
    | RowEventType.del => { base with Data := [oldData] }
    | RowEventType.ins => { base with Data := [data] }
    | RowEventType.upd => { base with Old := Option.some [oldData], Data := [data] }
  if enableTiDBExtension then
    CanalFlatMsg.withExt base { CommitTs := e.CommitTs, WatermarkTs := 0 }
  else CanalFlatMsg.plain base

/-- `newFlatMessageForDDL` of the source; `ID` is again `0`. -/
def newFlatMessageForDDL (enableTiDBExtension : Bool) (now : Int)
    (e : DDLEvent) : CanalFlatMsg :=
  let base : CanalFlatMessage :=
    { ID := 0
      Schema := e.SchemaName
      Table := e.TableName
      PKNames := []
      IsDDL := true
      EventType := e.eventTypeName
      ExecutionTime := convertToCanalTs e.CommitTs
      BuildTime := now
      Query := e.Query
      SQLType := []
      MySQLType := []
      Data := []
      Old := Option.none
      tikvTs := e.CommitTs }
  if enableTiDBExtension then
    CanalFlatMsg.withExt base { CommitTs := e.CommitTs, WatermarkTs := 0 }
  else CanalFlatMsg.plain base

/-- `newFlatMessage4CheckpointEvent` of the source: always the extension
variant, `ID = 0`, event type `TIDB_WATERMARK`, watermark ts in the
extension. -/
def newFlatMessage4CheckpointEvent (now : Int) (ts : Nat) : CanalFlatMsg :=
  CanalFlatMsg.withExt
    { ID := 0
      Schema := ""
      Table := ""
      PKNames := []
      IsDDL := false
      EventType := tidbWaterMarkType
      ExecutionTime := convertToCanalTs ts
      BuildTime := now
      Query := ""
      SQLType := []
      MySQLType := []
      Data := []
      Old := Option.none
      tikvTs := 0 }
    { CommitTs := 0, WatermarkTs := ts }

/-- The `CanalFlatEventBatchEncoder` struct (the entry builder is stateless in
the modelled fragment and is omitted). -/
structure CanalFlatEventBatchEncoder where
  messageBuf : List CanalFlatMsg
  enableTiDBExtension : Bool
deriving DecidableEq

/-- `NewCanalFlatEventBatchEncoder`: empty buffer, extension disabled. -/
def NewCanalFlatEventBatchEncoder : CanalFlatEventBatchEncoder :=
  { messageBuf := [], enableTiDBExtension := false }

/-- Message types of an MQ message (`model.MqMessageType`). -/
inductive MqMessageType
  | row
  | ddl
  | resolved
  | unknown
deriving DecidableEq

/-- The parts of an `MQMessage` the embedded fragment produces.  The JSON
value is kept as the structured flat message: the byte format round-trips, so
identifying a message with its decoded value loses nothing the claims need. -/
structure MQMessage where
  protocol : String
  key : Option String
  value : CanalFlatMsg
  ts : Nat
  ty : MqMessageType
deriving DecidableEq

/-- `newResolvedMQMessage` (defined outside the included sources; it tags the
payload as a resolved-ts message). -/
def newResolvedMQMessage (protocol : String) (key : Option String)
    (value : CanalFlatMsg) (ts : Nat) : MQMessage :=
  { protocol := protocol, key := key, value := value, ts := ts,
    ty := MqMessageType.resolved }

/-- `EncodeCheckpointEvent` of the source: `(nil, nil)` when the TiDB
extension is disabled, otherwise a resolved MQ message holding the checkpoint
flat message.  `json.Marshal` of this record cannot fail, so the error return
of the source is uninhabited and the result is an `Option`. -/
def EncodeCheckpointEvent (c : CanalFlatEventBatchEncoder) (now : Int)
    (ts : Nat) : Option MQMessage :=
  if !c.enableTiDBExtension then Option.none
  else
    Option.some
      (newResolvedMQMessage ProtocolCanalJSON Option.none
        (newFlatMessage4CheckpointEvent now ts) ts)

/-- `AppendRowChangedEvent` of the source: buffers the DML flat message. -/
def AppendRowChangedEvent (c : CanalFlatEventBatchEncoder) (now : Int)
    (e : RowChangedEvent) : CanalFlatEventBatchEncoder :=
  { c with messageBuf :=
      c.messageBuf ++ [newFlatMessageForDML c.enableTiDBExtension now e] }

/-- Go map lookup on an association list (`m[k]`, with the `ok` flag as
`Option`). -/
def assocLookup {β : Type} (l : List (String × β)) (k : String) : Option β :=
  (l.find? (fun kv => kv.1 == k)).map Prod.snd

/-- `trimUnsignedFromMySQLType` (defined outside the included sources):
strips a trailing `" unsigned"` from a mysql type string. -/
def trimUnsignedFromMySQLType (s : String) : String :=
  if (" unsigned").data.isSuffixOf s.data then
    ⟨s.data.take (s.data.length - 9)⟩
  else s

/-- A decoded sink column.  Modelled from the spec: `newColumn` and
`decodeCanalJSONColumn` live outside the included sources; the decoded column
is the tuple the decoder feeds them. -/
structure Column where
  Name : String
  Value : Datum
  javaType : Int
  mysqlType : String
deriving DecidableEq

/-- Descending name order used by the decoder's final
`sort.Slice (strings.Compare > 0)`. -/
def colNameGe (a b : Column) : Prop := b.Name.data ≤ a.Name.data

instance : DecidableRel colNameGe := fun a b =>
  inferInstanceAs (Decidable (b.Name.data ≤ a.Name.data))

/-- One iteration of the decoder's column loop: look up the java and mysql
types of a column name (errors mirror the source's `ErrCanalDecodeFailed`
messages) and build the sink column. -/
def columnOfEntry (mysqlType : List (String × String))
    (javaSQLType : List (String × Int)) (e : String × Datum) :
    Except String Column :=
  match assocLookup javaSQLType e.1 with
  | Option.none => Except.error "java sql type does not found"
  | Option.some javaType =>
    match assocLookup mysqlType e.1 with
    | Option.none => Except.error "mysql type does not found"
    | Option.some mysqlTypeStr =>
      Except.ok
        { Name := e.1, Value := e.2, javaType := javaType,
          mysqlType := trimUnsignedFromMySQLType mysqlTypeStr }

/-- `canalFlatJSONColumnMap2SinkColumns` of the source: convert each entry,
return `nil` for an empty result, otherwise sort by descending column name. -/
def canalFlatJSONColumnMap2SinkColumns (cols : Option (List (String × Datum)))
    (mysqlType : List (String × String)) (javaSQLType : List (String × Int)) :
    Except String (Option (List Column)) := do
  let entries := match cols with
    | Option.none => []
    | Option.some l => l
  let result ← entries.mapM (columnOfEntry mysqlType javaSQLType)
  if result.length = 0 then
    return Option.none
  else
    return Option.some (result.insertionSort colNameGe)

/-- The `model.TableName` pair the decoder fills. -/
structure DecTableName where
  Schema : String
  Table : String
deriving DecidableEq

/-- The fields of a `model.RowChangedEvent` that
`canalFlatMessage2RowChangedEvent` sets. -/
structure DecodedRowChangedEvent where
  CommitTs : Nat
  Table : DecTableName
  Columns : Option (List Column)
  PreColumns : Option (List Column)
deriving DecidableEq

/-- The fields of a `model.DDLEvent` that `canalFlatMessage2DDLEvent`
sets. -/
structure DecodedDDLEvent where
  CommitTs : Nat
  Schema : String
  Table : String
  Query : String
deriving DecidableEq

/-- `canalFlatMessage2RowChangedEvent` of the source. -/
def canalFlatMessage2RowChangedEvent (flatMessage : CanalFlatMsg) :
    Except String DecodedRowChangedEvent := do
  let columns ← canalFlatJSONColumnMap2SinkColumns flatMessage.getData
    flatMessage.getMySQLType flatMessage.getJavaSQLType
  let preColumns ← canalFlatJSONColumnMap2SinkColumns flatMessage.getOld
    flatMessage.getMySQLType flatMessage.getJavaSQLType
  Except.ok
    { CommitTs := flatMessage.getCommitTs
      Table := { Schema := flatMessage.getSchema, Table := flatMessage.getTable }
      Columns := columns
      PreColumns := preColumns }

/-- `canalFlatMessage2DDLEvent` of the source ("we lost the startTs from
kafka message"). -/
def canalFlatMessage2DDLEvent (flatDDL : CanalFlatMsg) : DecodedDDLEvent :=
  { CommitTs := flatDDL.getCommitTs
    Schema := flatDDL.getSchema
    Table := flatDDL.getTable
    Query := flatDDL.getQuery }

end Canal

namespace Optimism

/-- A table schema (`TableInfo`).  Modelled from the spec: the SQL `TableInfo`
and the schema-comparison library live outside the included sources; the spec
treats a schema as an opaque value with equality, a join that may fail with
`ConflictDetected`, and a column lattice.  The model is the column map of the
table: an association list from column name to column type, kept sorted by
name so that equality of schemas is equality of column maps. -/
abbrev Schema := List (String × String)

/-- Insert one column into a (name-sorted) schema: inserting an existing
column with the same type is a no-op, inserting it with a different type is
the column-lattice conflict (`c1 TEXT` vs `c1 DATETIME`), a new column lands
at its sorted position. -/
def insertCol (p : String × String) : Schema → Option Schema
  | [] => Option.some [p]
  | q :: qs =>
      if p.1.data < q.1.data then Option.some (p :: q :: qs)
      else if q.1.data < p.1.data then (insertCol p qs).map (fun r => q :: r)
      else if p.2 = q.2 then Option.some (q :: qs)
      else Option.none

/-- Modelled from the spec: `Join(S)` of the Schema Joiner.  The join of two
schemas is their column-wise union — a schema that is "a superset in the
column lattice of all inputs" — and it fails exactly when the two schemas
give one column name two different types ("no common supertype").  In
particular a dropped column is retained as long as any input still has it. -/
def joinSchema (a b : Schema) : Option Schema :=
  List.foldlM (fun acc p => insertCol p acc) a b

/-- Join of a set of schemas (left fold of the binary join; `none` for the
empty set, which never arises for a lock with members). -/
def joinList : List Schema → Option Schema
  | [] => Option.none
  | s :: rest => List.foldlM joinSchema s rest

/-- One upstream shard `(source, upSchema, upTable)`. -/
structure ShardId where
  source : String
  upSchema : String
  upTable : String
deriving DecidableEq

/-- The `Info` record a shard reports, with its store metadata (`Version`,
`Revision`). -/
structure Info where
  task : String
  source : String
  upSchema : String
  upTable : String
  downSchema : String
  downTable : String
  DDLs : List String
  preSchema : Schema
  postSchemas : List Schema
  version : Nat
  revision : Nat
deriving DecidableEq

/-- `ConflictStage ∈ {None, Detected, Resolved}`; the constructor `none`
is the spec's `None`. -/
inductive ConflictStage
  | none
  | detected
  | resolved
deriving DecidableEq

/-- The `Operation` record the coordinator writes for one shard. -/
structure Operation where
  task : String
  source : String
  upSchema : String
  upTable : String
  DDLs : List String
  conflictStage : ConflictStage
  done : Bool
deriving DecidableEq

/-- Per-shard state inside a lock: last-known schema, `ready`, `done` and the
largest observed `Version`, as in the spec's lock state tables. -/
structure LockShard where
  source : String
  upSchema : String
  upTable : String
  schema : Schema
  ready : Bool
  done : Bool
  version : Nat
deriving DecidableEq

/-- One shard-DDL lock: target identity, current joined schema, and the
participating shards. -/
structure Lock where
  task : String
  downSchema : String
  downTable : String
  joined : Schema
  shards : List LockShard
deriving DecidableEq

/-- The shard a `ShardId` names. -/
def shardHasId (t : ShardId) (sh : LockShard) : Prop :=
  sh.source = t.source ∧ sh.upSchema = t.upSchema ∧ sh.upTable = t.upTable

instance (t : ShardId) (sh : LockShard) : Decidable (shardHasId t sh) := by
  unfold shardHasId; infer_instance

/-- The shard an `Info` comes from. -/
def infoKeyOf (info : Info) (sh : LockShard) : Prop :=
  sh.source = info.source ∧ sh.upSchema = info.upSchema ∧ sh.upTable = info.upTable

instance (info : Info) (sh : LockShard) : Decidable (infoKeyOf info sh) := by
  unfold infoKeyOf; infer_instance

/-- The shard named by an explicit key triple. -/
def shardHasKey (sh : LockShard) (source upSchema upTable : String) : Prop :=
  sh.source = source ∧ sh.upSchema = upSchema ∧ sh.upTable = upTable

instance (sh : LockShard) (source upSchema upTable : String) :
    Decidable (shardHasKey sh source upSchema upTable) := by
  unfold shardHasKey; infer_instance

/-- The schema a shard is at after applying its reported DDLs: the last entry
of `postSchemas` (the spec's `info.postSchemas[last]`). -/
def postOf (info : Info) : Schema := info.postSchemas.getLastD info.preSchema

/-- A lock member created for a shard that has not reported yet, at the
bootstrap schema of the lock. -/
def newShard (t : ShardId) (pre : Schema) : LockShard :=
  { source := t.source, upSchema := t.upSchema, upTable := t.upTable,
    schema := pre, ready := false, done := false, version := 0 }

/-- Modelled from the spec: `TrySync` step 2 — "add any other shards now
present in the Table Registry but missing from the lock"; a shard that has
not reported is carried at the bootstrap (pre-DDL) schema of the incoming
info. -/
def addMissing (shards : List LockShard) (pre : Schema) (tts : List ShardId) :
    List LockShard :=
  shards ++
    (tts.filter (fun t => decide (¬ ∃ sh ∈ shards, shardHasId t sh))).map
      (fun t => newShard t pre)

/-- Modelled from the spec: `TrySync` step 1 — "record/refresh
`tables[...] = info.postSchemas[last]`, set `ready = true`, reset
`done = false`" for the reporting shard. -/
def updShard (info : Info) (sh : LockShard) : LockShard :=
  if infoKeyOf info sh then
    { sh with
      schema := postOf info
      ready := true
      done := false
      version := info.version }
  else sh

/-- The member entry for a reporting shard the registry did not know. -/
def callerShard (info : Info) : LockShard :=
  { source := info.source, upSchema := info.upSchema, upTable := info.upTable,
    schema := postOf info, ready := true, done := false, version := info.version }

/-- The joined schema of a member list (the join over "all current per-shard
schemas"). -/
def computeJoined (shards : List LockShard) : Option Schema :=
  joinList (shards.map (fun sh => sh.schema))

/-- Modelled from the spec: `TrySync` steps 3–5 on the refreshed member list.
A failed join returns `(∅, Detected)` ("emit an operation with empty DDLs
and `ConflictStage=Detected` so the shard halts").  Otherwise the joined
schema is updated, and the DDLs emitted to the reporting shard are its own
reported DDLs when its post-schema has reached the new joined schema, and
empty otherwise.  The emission rule follows the spec's pinned scenarios
(§8 S1–S3, the values of the exercised tests): an add-column reporter whose
post-schema equals the joined schema receives exactly its reported DDLs
(S1), a drop-column initiator whose post-schema is below the joined schema
receives empty DDLs (S3), and a conflicting re-put that joins cleanly but
stays below the joined schema receives empty DDLs (S2); the deferred drop
DDL is released to the final dropper, whose post-schema again equals the
joined schema (S3). -/
def syncStep (L : Lock) (info : Info) (shards1 : List LockShard) :
    Lock × List String × ConflictStage :=
  match computeJoined shards1 with
  | Option.none => ({ L with shards := shards1 }, [], ConflictStage.detected)
  | Option.some j =>
      ({ L with shards := shards1, joined := j },
        if postOf info = j then info.DDLs else [], ConflictStage.none)

/-- Modelled from the spec: `TrySync(info, tablesForTarget)` — the central
lock operation.  Membership is refreshed from the registry, an info with an
older `Version` than the recorded one is discarded (spec invariant 5), the
reporting shard is refreshed, and the join/classification step runs. -/
def Lock.TrySync (L : Lock) (info : Info) (tts : List ShardId) :
    Lock × List String × ConflictStage :=
  let shards0 := addMissing L.shards info.preSchema tts
  match shards0.find? (fun sh => decide (infoKeyOf info sh)) with
  | Option.none => syncStep L info (shards0 ++ [callerShard info])
  | Option.some sh =>
      if info.version < sh.version then (L, [], ConflictStage.none)
      else syncStep L info (shards0.map (updShard info))

/-- Modelled from the spec: `MarkDone(source, upSchema, upTable)` sets
`done = true` for that shard. -/
def Lock.MarkDone (L : Lock) (source upSchema upTable : String) : Lock :=
  { L with shards := L.shards.map (fun sh =>
      if shardHasKey sh source upSchema upTable then { sh with done := true }
      else sh) }

/-- Modelled from the spec: removing a shard from a lock when its source
table is deleted ("remove the shard from any lock it participates in"). -/
def Lock.RemoveTable (L : Lock) (source upSchema upTable : String) : Lock :=
  { L with shards := L.shards.filter (fun sh =>
      decide (¬ shardHasKey sh source upSchema upTable)) }

/-- Modelled from the spec: `IsSynced()` — "all known shards have
`ready=true`; returns also `remain = count(ready=false)`". -/
def Lock.IsSynced (L : Lock) : Bool × Nat :=
  (L.shards.all (fun sh => sh.ready),
    (L.shards.filter (fun sh => !sh.ready)).length)

/-- Modelled from the spec: `IsDone` exposes per-shard done state. -/
def Lock.IsDone (L : Lock) (source upSchema upTable : String) : Bool :=
  L.shards.any (fun sh =>
    decide (shardHasKey sh source upSchema upTable) && sh.done)

/-- Modelled from the spec: `IsResolved()` — synced, all `done`, and every
shard's last-known schema equals the joined schema. -/
def Lock.IsResolved (L : Lock) : Bool :=
  L.shards.all (fun sh =>
    sh.ready && sh.done && decide (sh.schema = L.joined))

/-- A store key of the `Info`/`Operation` key families. -/
structure StoreKey where
  task : String
  source : String
  upSchema : String
  upTable : String
deriving DecidableEq

/-- The store key of an info. -/
def infoStoreKey (info : Info) : StoreKey :=
  { task := info.task, source := info.source, upSchema := info.upSchema,
    upTable := info.upTable }

/-- The store key of an operation. -/
def opStoreKey (op : Operation) : StoreKey :=
  { task := op.task, source := op.source, upSchema := op.upSchema,
    upTable := op.upTable }

/-- The coordinator state the claims observe: the in-memory lock table
(`Locks()`, keyed by `LockID`) and the persisted `Info` and `Operation` key
families of the metadata store. -/
structure OptimistState where
  locks : List (String × Lock)
  infos : List (StoreKey × Info)
  ops : List (StoreKey × Operation)
deriving DecidableEq

/-- `LockID = "{task}-`{downSchema}`.`{downTable}`"`. -/
def lockIDof (task downSchema downTable : String) : String :=
  task ++ "-`" ++ downSchema ++ "`.`" ++ downTable ++ "`"

/-- Lookup in the lock table. -/
def lookupLock (lid : String) (ls : List (String × Lock)) : Option Lock :=
  (ls.find? (fun kv => kv.1 == lid)).map Prod.snd

/-- Replace-or-insert in the lock table. -/
def upsertLock (lid : String) (L : Lock) (ls : List (String × Lock)) :
    List (String × Lock) :=
  (lid, L) :: ls.filter (fun kv => kv.1 != lid)

/-- Store put: the latest value for a key replaces the previous one. -/
def putKV {β : Type} (k : StoreKey) (v : β) (l : List (StoreKey × β)) :
    List (StoreKey × β) :=
  (k, v) :: l.filter (fun kv => kv.1 != k)

/-- A lock created lazily on the first info for its target, bootstrapped at
that info's pre-DDL schema (the spec's `InitSchema` is the first-seen schema
of the target). -/
def newLock (info : Info) : Lock :=
  { task := info.task, downSchema := info.downSchema,
    downTable := info.downTable, joined := info.preSchema, shards := [] }

/-- Modelled from the spec: the Reconciler's **Info PUT** event — "locate or
create the lock, call `TrySync`, persist the resulting Operation".  `tts` is
the Table Registry's member list for the target.  Returns the new state and
the operation written for the reporting shard. -/
def handleInfoPut (st : OptimistState) (tts : List ShardId) (info : Info) :
    OptimistState × Operation :=
  let lid := lockIDof info.task info.downSchema info.downTable
  let L0 := match lookupLock lid st.locks with
    | Option.some L => L
    | Option.none => newLock info
  let r := L0.TrySync info tts
  let op : Operation :=
    { task := info.task, source := info.source, upSchema := info.upSchema,
      upTable := info.upTable, DDLs := r.2.1, conflictStage := r.2.2,
      done := false }
  ({ locks := upsertLock lid r.1 st.locks,
     infos := putKV (infoStoreKey info) info st.infos,
     ops := putKV (infoStoreKey info) op st.ops }, op)

/-- The lock an acknowledged operation belongs to: same task, and the
operation's shard is a member. -/
def opMatchesLock (op : Operation) (kv : String × Lock) : Prop :=
  kv.2.task = op.task ∧
    ∃ sh ∈ kv.2.shards, shardHasKey sh op.source op.upSchema op.upTable

instance (op : Operation) (kv : String × Lock) :
    Decidable (opMatchesLock op kv) := by
  unfold opMatchesLock; infer_instance

/-- An info belonging to a lock's target. -/
def targetOf (L : Lock) (info : Info) : Prop :=
  info.task = L.task ∧ info.downSchema = L.downSchema ∧
    info.downTable = L.downTable

instance (L : Lock) (info : Info) : Decidable (targetOf L info) := by
  unfold targetOf; infer_instance

/-- A store key belonging to one of a lock's member shards. -/
def keyInLock (L : Lock) (k : StoreKey) : Prop :=
  k.task = L.task ∧ ∃ sh ∈ L.shards, shardHasKey sh k.source k.upSchema k.upTable

instance (L : Lock) (k : StoreKey) : Decidable (keyInLock L k) := by
  unfold keyInLock; infer_instance

/-- Modelled from the spec: the Reconciler's **Operation PUT with Done=true**
event — `MarkDone`; "if the lock is now resolved, delete all associated keys
(Infos, Operations) in one atomic batch and remove the lock". -/
def handleOperationPut (st : OptimistState) (op : Operation) : OptimistState :=
  if op.done then
    match st.locks.find? (fun kv => decide (opMatchesLock op kv)) with
    | Option.none => st
    | Option.some kv =>
        let L2 := kv.2.MarkDone op.source op.upSchema op.upTable
        if L2.IsResolved then
          { locks := st.locks.filter (fun kv2 => kv2.1 != kv.1),
            infos := st.infos.filter (fun e => decide (¬ targetOf kv.2 e.2)),
            ops := st.ops.filter (fun e => decide (¬ keyInLock kv.2 e.1)) }
        else { st with locks := upsertLock kv.1 L2 st.locks }
  else st

/-- Update the lock stored under `lid`, leaving other entries alone. -/
def updateLockIn (lid : String) (f : Lock → Lock)
    (ls : List (String × Lock)) : List (String × Lock) :=
  ls.map (fun kv => if kv.1 == lid then (kv.1, f kv.2) else kv)

/-- Modelled from the spec: the watcher side of `PutSourceTablesDeleteInfo` —
a SourceTables deletion removes the shard from the lock of its target (the
deletion-is-synced shortcut) and the atomic write also deleted the shard's
info key. -/
def handleSourceTablesDeleteInfo (st : OptimistState) (info : Info) :
    OptimistState :=
  { locks := updateLockIn (lockIDof info.task info.downSchema info.downTable)
      (fun L => L.RemoveTable info.source info.upSchema info.upTable) st.locks,
    infos := st.infos.filter (fun e => e.1 != infoStoreKey info),
    ops := st.ops }

/-- Lexicographic order on strings, by character sequence. -/
def strLe (a b : String) : Prop := a.data ≤ b.data

instance : DecidableRel strLe := fun a b =>
  inferInstanceAs (Decidable (a.data ≤ b.data))

instance : IsTotal String strLe := ⟨fun a b => le_total a.data b.data⟩

instance : IsTrans String strLe := ⟨fun _ _ _ h1 h2 => le_trans h1 h2⟩

/-- Lexicographic sort of a string list. -/
def sortStrings (l : List String) : List String := l.insertionSort strLe

/-- The `"{source}-`{upSchema}`.`{upTable}`"` display name of a shard in
`ShowLocks` output. -/
def shardName (sh : LockShard) : String :=
  sh.source ++ "-`" ++ sh.upSchema ++ "`.`" ++ sh.upTable ++ "`"

/-- The `Mode` string of an optimistic lock. -/
def ShardOptimistic : String := "ShardOptimistic"

/-- The `DDLLock` record `ShowLocks` returns. -/
structure DDLLock where
  ID : String
  Task : String
  Mode : String
  Owner : String
  DDLs : Option (List String)
  Synced : List String
  Unsynced : List String
deriving DecidableEq

/-- `Synced`: sorted names of the shards whose last-known schema equals the
joined schema. -/
def lockSyncedList (L : Lock) : List String :=
  sortStrings ((L.shards.filter (fun sh => decide (sh.schema = L.joined))).map
    shardName)

/-- `Unsynced`: sorted names of the complementary shards. -/
def lockUnsyncedList (L : Lock) : List String :=
  sortStrings
    ((L.shards.filter (fun sh => decide (¬ sh.schema = L.joined))).map
      shardName)

/-- Modelled from the spec: the `DDLLock` built for one lock — `Mode` is
`"ShardOptimistic"`, `Owner` is always `""`, `DDLs` always null. -/
def showLockEntry (lid : String) (L : Lock) : DDLLock :=
  { ID := lid, Task := L.task, Mode := ShardOptimistic, Owner := "",
    DDLs := Option.none, Synced := lockSyncedList L,
    Unsynced := lockUnsyncedList L }

/-- The `ShowLocks` filter: empty `task` matches all tasks, empty `sources`
matches all sources, otherwise a lock matches when its task equals `task` and
some member shard's source is listed. -/
def lockMatches (task : String) (sources : List String)
    (kv : String × Lock) : Prop :=
  (task = "" ∨ kv.2.task = task) ∧
    (sources = [] ∨ ∃ sh ∈ kv.2.shards, sh.source ∈ sources)

instance (task : String) (sources : List String) (kv : String × Lock) :
    Decidable (lockMatches task sources kv) := by
  unfold lockMatches; infer_instance

/-- Order of `ShowLocks` output: by `LockID`. -/
def ddlLockLe (a b : DDLLock) : Prop := a.ID.data ≤ b.ID.data

instance : DecidableRel ddlLockLe := fun a b =>
  inferInstanceAs (Decidable (a.ID.data ≤ b.ID.data))

/-- Modelled from the spec: `ShowLocks(task, sources)` — one `DDLLock` per
matching lock, sorted by `LockID`. -/
def ShowLocks (task : String) (sources : List String)
    (locks : List (String × Lock)) : List DDLLock :=
  ((locks.filter (fun kv => decide (lockMatches task sources kv))).map
    (fun kv => showLockEntry kv.1 kv.2)).insertionSort ddlLockLe

/-- Revision order on infos. -/
def infoRevLe (a b : Info) : Prop := a.revision ≤ b.revision

instance : DecidableRel infoRevLe := fun a b =>
  inferInstanceAs (Decidable (a.revision ≤ b.revision))

/-- Modelled from the spec: `sortInfos(snapshot)` — the snapshot map holds
one info per `(task, source, upSchema, upTable)` key, so each group of the
spec's description is a single info and the replay order is the ascending
store-revision order of the infos. -/
def sortInfos (infos : List Info) : List Info := infos.insertionSort infoRevLe

/-- The schema obtained by dropping column `c` (used to state the drop-column
claims). -/
def dropCol (c : String) (s : Schema) : Schema := s.filter (fun p => p.1 != c)

/-- Column names strictly sorted: the invariant of the schema encoding. -/
def SortedCols (s : Schema) : Prop :=
  List.Pairwise (fun a b => a.1.data < b.1.data) s

instance (s : Schema) : Decidable (SortedCols s) := by
  unfold SortedCols; infer_instance

end Optimism

namespace Canal

/-- A minimal plain flat message used to instantiate the decoder claims. -/
def msg0 : CanalFlatMessage :=
  { ID := 0
    Schema := "db"
    Table := "tbl"
    PKNames := []
    IsDDL := false
    EventType := "INSERT"
    ExecutionTime := 0
    BuildTime := 0
    Query := ""
    SQLType := []
    MySQLType := []
    Data := []
    Old := Option.none
    tikvTs := 5 }

/-- The row event `msg0` decodes to. -/
def ev0 : DecodedRowChangedEvent :=
  { CommitTs := 0
    Table := { Schema := "db", Table := "tbl" }
    Columns := Option.none
    PreColumns := Option.none }

/-- An encoder with the TiDB extension disabled. -/
def encOff : CanalFlatEventBatchEncoder :=
  { messageBuf := [], enableTiDBExtension := false }

/-- An encoder with the TiDB extension enabled. -/
def encOn : CanalFlatEventBatchEncoder :=
  { messageBuf := [], enableTiDBExtension := true }

end Canal

namespace Optimism

/-- `CREATE TABLE bar (id INT PRIMARY KEY)`. -/
def ti0 : Schema := [("id", "INT")]

/-- `CREATE TABLE bar (id INT PRIMARY KEY, c1 INT)`. -/
def ti1 : Schema := [("c1", "INT"), ("id", "INT")]

/-- `CREATE TABLE bar (id INT PRIMARY KEY, c1 INT, c2 INT)`. -/
def ti2 : Schema := [("c1", "INT"), ("c2", "INT"), ("id", "INT")]

/-- `CREATE TABLE bar (id INT PRIMARY KEY, c1 TEXT)`. -/
def tiText : Schema := [("c1", "TEXT"), ("id", "INT")]

/-- `CREATE TABLE bar (id INT PRIMARY KEY, c1 DATETIME)`. -/
def tiDate : Schema := [("c1", "DATETIME"), ("id", "INT")]

/-- `CREATE TABLE bar (id INT PRIMARY KEY, c1 TEXT, c2 INT)`. -/
def tiText2 : Schema := [("c1", "TEXT"), ("c2", "INT"), ("id", "INT")]

/-- The task name of the conflict and drop-column scenarios. -/
def cTask : String := "task-test-optimist"

/-- `mysql-replica-1`. -/
def cSource1 : String := "mysql-replica-1"

/-- `mysql-replica-2`. -/
def cSource2 : String := "mysql-replica-2"

/-- Registry of the conflict scenario: two shards of source 1 feed
`foo.bar`. -/
def confTts : List ShardId :=
  [⟨cSource1, "foo", "bar-1"⟩, ⟨cSource1, "foo", "bar-2"⟩]

/-- Shard 1 adds `c1 TEXT`. -/
def confI1 : Info :=
  ⟨cTask, cSource1, "foo", "bar-1", "foo", "bar",
    ["ALTER TABLE bar ADD COLUMN c1 TEXT"], ti0, [tiText], 1, 1⟩

/-- Shard 2 adds `c1 DATETIME` — the conflicting report. -/
def confI2 : Info :=
  ⟨cTask, cSource1, "foo", "bar-2", "foo", "bar",
    ["ALTER TABLE bar ADD COLUMN c1 DATETIME"], ti0, [tiDate], 1, 2⟩

/-- Shard 2 re-puts with DDL `c1 TEXT`; as in the exercised test, its
post-schema is the original schema (the handle-error replace case). -/
def confI3 : Info :=
  ⟨cTask, cSource1, "foo", "bar-2", "foo", "bar",
    ["ALTER TABLE bar ADD COLUMN c1 TEXT"], ti0, [ti0], 2, 3⟩

/-- Shard 2 re-puts with DDL `c1 TEXT` and a post-schema equal to the joined
schema — the input the claim's wording describes. -/
def confI3m : Info :=
  ⟨cTask, cSource1, "foo", "bar-2", "foo", "bar",
    ["ALTER TABLE bar ADD COLUMN c1 TEXT"], ti0, [tiText], 2, 3⟩

/-- The empty coordinator state. -/
def stEmpty : OptimistState := ⟨[], [], []⟩

/-- State after shard 1's report. -/
def confSt1 : OptimistState := (handleInfoPut stEmpty confTts confI1).1

/-- State after the conflicting report of shard 2. -/
def confSt2 : OptimistState := (handleInfoPut confSt1 confTts confI2).1

/-- Registry of the drop-column scenario: `source1/foo.bar-1` and
`source2/foo-2.bar-3` feed `foo.bar`. -/
def dropTts : List ShardId :=
  [⟨cSource1, "foo", "bar-1"⟩, ⟨cSource2, "foo-2", "bar-3"⟩]

/-- Shard 1 initiates `DROP COLUMN c2`. -/
def dropI31 : Info :=
  ⟨cTask, cSource1, "foo", "bar-1", "foo", "bar",
    ["ALTER TABLE bar DROP COLUMN c2"], ti2, [ti1], 1, 10⟩

/-- Shard 3 also drops `c2` — the final dropper. -/
def dropI33 : Info :=
  ⟨cTask, cSource2, "foo-2", "bar-3", "foo", "bar",
    ["ALTER TABLE bar DROP COLUMN c2"], ti2, [ti1], 1, 11⟩

/-- State after the drop initiator's report. -/
def dropSt1 : OptimistState := (handleInfoPut stEmpty dropTts dropI31).1

/-- The operation written for the drop initiator. -/
def dropOp31 : Operation := (handleInfoPut stEmpty dropTts dropI31).2

/-- State after the initiator's operation is acknowledged. -/
def dropSt1b : OptimistState :=
  handleOperationPut dropSt1 { dropOp31 with done := true }

/-- State after the final dropper's report. -/
def dropSt2 : OptimistState := (handleInfoPut dropSt1b dropTts dropI33).1

/-- The operation written for the final dropper. -/
def dropOp33 : Operation := (handleInfoPut dropSt1b dropTts dropI33).2

/-- The drop-column lock as it stands between the two reports. -/
def dropLock1 : Lock :=
  { task := cTask
    downSchema := "foo"
    downTable := "bar"
    joined := ti2
    shards :=
      [⟨cSource1, "foo", "bar-1", ti1, true, false, 1⟩,
        ⟨cSource2, "foo-2", "bar-3", ti2, false, false, 0⟩] }

/-- A three-shard lock used to instantiate the deletion-is-synced claim:
`bar-2` has not reported, the other two shards have. -/
def delLock : Lock :=
  { task := cTask
    downSchema := "foo"
    downTable := "bar"
    joined := ti2
    shards :=
      [⟨cSource1, "foo", "bar-1", ti2, true, false, 1⟩,
        ⟨cSource1, "foo", "bar-2", ti1, false, false, 0⟩,
        ⟨cSource2, "foo-2", "bar-3", ti2, true, false, 1⟩] }

/-- The shard whose source table is deleted in the deletion scenario. -/
def delInfo : Info :=
  ⟨cTask, cSource1, "foo", "bar-2", "foo", "bar", [], ti0, [ti1], 1, 12⟩

/-- A coordinator state holding `delLock`. -/
def delSt : OptimistState :=
  ⟨[(lockIDof cTask "foo" "bar", delLock)],
    [(infoStoreKey delInfo, delInfo)], []⟩

/-- Infos of the replay-sort scenario (`testSortInfos`): `A` is
`shard1.bar-1` whose latest put is version 2 at revision 4. -/
def sortInfoA : Info :=
  ⟨"test-optimist-init-schema", cSource1, "foo", "bar-1", "foo", "bar",
    ["ALTER TABLE bar ADD COLUMN c1 TEXT"], ti0, [tiText], 2, 4⟩

/-- `B` is `shard1.bar-2`, version 1 at revision 2. -/
def sortInfoB : Info :=
  ⟨"test-optimist-init-schema", cSource1, "foo", "bar-2", "foo", "bar",
    ["ALTER TABLE bar ADD COLUMN c1 TEXT"], ti0, [tiText], 1, 2⟩

/-- `C` is `shard2.bar-2`, version 1 at revision 3. -/
def sortInfoC : Info :=
  ⟨"test-optimist-init-schema", cSource2, "foo", "bar-2", "foo", "bar",
    ["ALTER TABLE bar ADD COLUMN c2 INT"], tiText, [tiText2], 1, 3⟩

instance : IsTotal Info infoRevLe := ⟨fun a b => Nat.le_total a.revision b.revision⟩

instance : IsTrans Info infoRevLe := ⟨fun _ _ _ h1 h2 => Nat.le_trans h1 h2⟩

instance : IsTotal DDLLock ddlLockLe := ⟨fun a b => le_total a.ID.data b.ID.data⟩

instance : IsTrans DDLLock ddlLockLe := ⟨fun _ _ _ h1 h2 => le_trans h1 h2⟩

/-- The drop-column lock before any shard reports: both shards known from the
registry, both at the full schema. -/
def dropLock0 : Lock :=
  { task := cTask
    downSchema := "foo"
    downTable := "bar"
    joined := ti2
    shards :=
      [⟨cSource1, "foo", "bar-1", ti2, false, false, 0⟩,
        ⟨cSource2, "foo-2", "bar-3", ti2, false, false, 0⟩] }

/-- A state holding the pre-report drop-column lock. -/
def stDrop0 : OptimistState :=
  ⟨[(lockIDof cTask "foo" "bar", dropLock0)], [], []⟩

/-- A state holding the mid-scenario drop-column lock (initiator dropped,
other shard retaining). -/
def stDrop1 : OptimistState :=
  ⟨[(lockIDof cTask "foo" "bar", dropLock1)], [], []⟩

/-- The drop-column lock when every shard is ready, the final dropper's
acknowledgement still pending. -/
def resLock : Lock :=
  { task := cTask
    downSchema := "foo"
    downTable := "bar"
    joined := ti1
    shards :=
      [⟨cSource1, "foo", "bar-1", ti1, true, true, 1⟩,
        ⟨cSource2, "foo-2", "bar-3", ti1, true, false, 1⟩] }

/-- The final dropper's acknowledged (`Done=true`) operation. -/
def resOp : Operation :=
  ⟨cTask, cSource2, "foo-2", "bar-3", ["ALTER TABLE bar DROP COLUMN c2"],
    ConflictStage.none, true⟩

/-- The initiator's acknowledged operation, still stored. -/
def resOp1 : Operation :=
  ⟨cTask, cSource1, "foo", "bar-1", [], ConflictStage.none, true⟩

/-- Coordinator state just before the final acknowledgement resolves the
lock: the lock, both infos and both operations are still present. -/
def resSt : OptimistState :=
  ⟨[(lockIDof cTask "foo" "bar", resLock)],
    [(infoStoreKey dropI31, dropI31), (infoStoreKey dropI33, dropI33)],
    [(opStoreKey resOp1, resOp1), (opStoreKey resOp, resOp)]⟩

/-- A one-lock lock table used to instantiate the `ShowLocks` claim. -/
def locks0 : List (String × Lock) :=
  [(lockIDof cTask "foo" "bar", dropLock1)]

end Optimism

namespace Canal

/-- C8: every Canal flat message built by the encoder — for a DML row-changed
event, for a DDL event, and for a checkpoint (watermark) event — has its `ID`
field present and equal to zero. -/
theorem c8_flat_message_id_zero (ext : Bool) (now : Int) (e : RowChangedEvent)
    (d : DDLEvent) (ts : Nat) :
    (newFlatMessageForDML ext now e).base.ID = 0 ∧
    (newFlatMessageForDDL ext now d).base.ID = 0 ∧
    (newFlatMessage4CheckpointEvent now ts).base.ID = 0 := by
  refine ⟨?_, ?_, rfl⟩
  · cases ext <;> cases he : e.eventType <;>
      simp [newFlatMessageForDML, CanalFlatMsg.base, he]
  · cases ext <;> simp [newFlatMessageForDDL, CanalFlatMsg.base]

/-- C9: `EncodeCheckpointEvent ts` returns no message (and no error) whenever
`enableTiDBExtension` is false; a checkpoint MQ message is produced only when
the TiDB extension is enabled. -/
theorem c9_checkpoint_requires_extension (c : CanalFlatEventBatchEncoder)
    (now : Int) (ts : Nat) :
    (c.enableTiDBExtension = false →
      EncodeCheckpointEvent c now ts = Option.none) ∧
    (∀ m, EncodeCheckpointEvent c now ts = Option.some m →
      c.enableTiDBExtension = true) := by
  constructor
  · intro h
    simp [EncodeCheckpointEvent, h]
  · intro m hm
    cases hc : c.enableTiDBExtension
    · rw [EncodeCheckpointEvent, hc] at hm
      simp at hm
    · rfl

/-- C9 witness: a disabled encoder yields no checkpoint message; an enabled
encoder has the extension on whenever a message is produced. -/
theorem c9_checkpoint_requires_extension_witness :
    EncodeCheckpointEvent encOff 0 5 = Option.none ∧
    encOn.enableTiDBExtension = true :=
  ⟨(c9_checkpoint_requires_extension encOff 0 5).1 rfl,
    (c9_checkpoint_requires_extension encOn 0 5).2
      (newResolvedMQMessage ProtocolCanalJSON Option.none
        (newFlatMessage4CheckpointEvent 0 5) 5) rfl⟩

/-- C10: a Canal flat message without the TiDB extension has `getCommitTs`
equal to 0, so every row-changed event or DDL event decoded from it has
`CommitTs = 0` regardless of the original commit timestamp. -/
theorem c10_plain_message_commit_ts_zero (m : CanalFlatMessage) :
    (CanalFlatMsg.plain m).getCommitTs = 0 ∧
    (∀ ev, canalFlatMessage2RowChangedEvent (CanalFlatMsg.plain m) =
        Except.ok ev → ev.CommitTs = 0) ∧
    (canalFlatMessage2DDLEvent (CanalFlatMsg.plain m)).CommitTs = 0 := by
  refine ⟨rfl, ?_, rfl⟩
  intro ev h
  rw [canalFlatMessage2RowChangedEvent] at h
  cases h1 : canalFlatJSONColumnMap2SinkColumns
      (CanalFlatMsg.plain m).getData (CanalFlatMsg.plain m).getMySQLType
      (CanalFlatMsg.plain m).getJavaSQLType with
  | error e1 =>
      rw [h1] at h
      simp [Bind.bind, Except.bind] at h
  | ok columns =>
      rw [h1] at h
      cases h2 : canalFlatJSONColumnMap2SinkColumns
          (CanalFlatMsg.plain m).getOld (CanalFlatMsg.plain m).getMySQLType
          (CanalFlatMsg.plain m).getJavaSQLType with
      | error e2 =>
          rw [h2] at h
          simp [Bind.bind, Except.bind] at h
      | ok preColumns =>
          rw [h2] at h
          simp only [Bind.bind, Except.bind, Except.ok.injEq] at h
          rw [← h]
          rfl

/-- C10 witness: the trivial plain message decodes successfully and both its
decoded row event and DDL event carry `CommitTs = 0`. -/
theorem c10_plain_message_commit_ts_zero_witness :
    ev0.CommitTs = 0 ∧
    canalFlatMessage2RowChangedEvent (CanalFlatMsg.plain msg0) =
      Except.ok ev0 ∧
    (canalFlatMessage2DDLEvent (CanalFlatMsg.plain msg0)).CommitTs = 0 :=
  ⟨(c10_plain_message_commit_ts_zero msg0).2.1 ev0 rfl, rfl,
    (c10_plain_message_commit_ts_zero msg0).2.2⟩

end Canal

namespace Optimism

theorem insertCol_mem {p : String × String} :
    ∀ {s : Schema}, SortedCols s → p ∈ s → insertCol p s = Option.some s
  | [], _, hp => absurd hp (List.not_mem_nil p)
  | q :: qs, hs, hp => by
      rcases List.mem_cons.mp hp with rfl | hp'
      · simp [insertCol, lt_irrefl]
      · have hq : q.1.data < p.1.data :=
          (List.pairwise_cons.mp hs).1 p hp'
        have hrec : insertCol p qs = Option.some qs :=
          insertCol_mem (List.pairwise_cons.mp hs).2 hp'
        simp [insertCol, hq, asymm hq, hrec]

theorem joinSchema_of_mem {a : Schema} (ha : SortedCols a) :
    ∀ {l : List (String × String)}, (∀ x ∈ l, x ∈ a) →
      joinSchema a l = Option.some a
  | [], _ => rfl
  | x :: l, h => by
      have h1 : insertCol x a = Option.some a :=
        insertCol_mem ha (h x (List.mem_cons_self x l))
      have h2 : joinSchema a l = Option.some a :=
        joinSchema_of_mem ha (fun y hy => h y (List.mem_cons_of_mem x hy))
      rw [joinSchema, List.foldlM_cons, h1]
      exact h2

theorem insertCol_filter {x : String × String} (g : (String × String) → Bool) :
    ∀ {J : Schema}, SortedCols J → x ∈ J →
      insertCol x (J.filter g) =
        Option.some (J.filter (fun q => g q || q == x))
  | [], _, hx => absurd hx (List.not_mem_nil x)
  | h :: rest, hs, hx => by
      obtain ⟨hhead, hrest⟩ := List.pairwise_cons.mp hs
      rcases List.mem_cons.mp hx with rfl | hxr
      · have hcong : rest.filter (fun q => g q || q == x) = rest.filter g := by
          apply List.filter_congr
          intro q hq
          have hne : ¬ q = x := by
            intro he
            exact lt_irrefl _ (he ▸ hhead q hq)
          simp [hne]
        by_cases hg : g x
        · simp [List.filter_cons, hg, insertCol, lt_irrefl, hcong]
        · rw [List.filter_cons, if_neg hg, List.filter_cons,
            if_pos (by simp : ((fun q => g q || q == x) x) = true), hcong]
          cases hfil : rest.filter g with
          | nil => simp [insertCol]
          | cons y ys =>
              have hy : y ∈ rest :=
                List.mem_of_mem_filter (hfil ▸ List.mem_cons_self y ys)
              have hlt : x.1.data < y.1.data := hhead y hy
              simp [insertCol, hlt]
      · have hxh : h.1.data < x.1.data := hhead x hxr
        have hbeq : (h == x) = false := by
          apply beq_eq_false_iff_ne.mpr
          intro he
          exact lt_irrefl _ (he ▸ hxh)
        have IH := insertCol_filter g hrest hxr
        by_cases hg : g h
        · rw [List.filter_cons, if_pos (by simp [hg]),
            List.filter_cons, if_pos (by simp [hg, hbeq])]
          simp [insertCol, hxh, asymm hxh, IH]
        · rw [List.filter_cons, if_neg (by simp [hg]),
            List.filter_cons, if_neg (by simp [hg, hbeq])]
          exact IH

theorem joinSchema_filter {J : Schema} (hJ : SortedCols J) :
    ∀ (l : List (String × String)) (g : (String × String) → Bool),
      (∀ x ∈ l, x ∈ J) →
      joinSchema (J.filter g) l =
        Option.some (J.filter (fun q => g q || l.any (fun x => q == x)))
  | [], g, _ => by
      simp [joinSchema]
  | x :: l, g, h => by
      have h1 := insertCol_filter g hJ (h x (List.mem_cons_self x l))
      have h2 := joinSchema_filter hJ l (fun q => g q || q == x)
        (fun y hy => h y (List.mem_cons_of_mem x hy))
      have hstep : joinSchema (J.filter g) (x :: l) =
          Option.some (List.filter
            (fun q => (g q || q == x) || l.any (fun p => q == p)) J) := by
        rw [joinSchema, List.foldlM_cons, h1]
        exact h2
      rw [hstep]
      congr 1
      apply List.filter_congr
      intro q hq
      simp [Bool.or_assoc]

theorem joinSchema_filter_self {J : Schema} (hJ : SortedCols J)
    (g : (String × String) → Bool) :
    joinSchema (J.filter g) J = Option.some J := by
  rw [joinSchema_filter hJ J g (fun _ hx => hx)]
  congr 1
  apply List.filter_eq_self.mpr
  intro a ha
  have : J.any (fun x => a == x) = true :=
    List.any_eq_true.mpr ⟨a, ha, by simp⟩
  simp [this]

theorem joinSchema_self {J : Schema} (hJ : SortedCols J) :
    joinSchema J J = Option.some J :=
  joinSchema_of_mem hJ (fun _ hx => hx)

end Optimism

namespace Optimism

theorem foldl_join_allD {D : Schema} (hDD : joinSchema D D = Option.some D) :
    ∀ (l : List Schema), (∀ s ∈ l, s = D) →
      List.foldlM joinSchema D l = Option.some D
  | [], _ => rfl
  | s :: l, h => by
      have hs := h s (List.mem_cons_self s l)
      subst hs
      rw [List.foldlM_cons, hDD]
      exact foldl_join_allD hDD l (fun y hy => h y (List.mem_cons_of_mem _ hy))

theorem foldl_join_reach {J D : Schema}
    (hJJ : joinSchema J J = Option.some J)
    (hDD : joinSchema D D = Option.some D)
    (hJD : joinSchema J D = Option.some J)
    (hDJ : joinSchema D J = Option.some J) :
    ∀ (l : List Schema) (acc : Schema),
      (acc = J ∨ acc = D) → (∀ s ∈ l, s = J ∨ s = D) →
      (acc = J ∨ J ∈ l) →
      List.foldlM joinSchema acc l = Option.some J
  | [], acc, _, _, hmem => by
      rcases hmem with rfl | hmem
      · rfl
      · exact absurd hmem (List.not_mem_nil J)
  | s :: l, acc, hacc, hall, hmem => by
      have hall2 : ∀ y ∈ l, y = J ∨ y = D :=
        fun y hy => hall y (List.mem_cons_of_mem _ hy)
      have hs := hall s (List.mem_cons_self s l)
      rw [List.foldlM_cons]
      rcases hacc with h1 | h1 <;> rcases hs with h2 | h2 <;> rw [h1, h2]
      · rw [hJJ]
        exact foldl_join_reach hJJ hDD hJD hDJ l J (Or.inl rfl) hall2
          (Or.inl rfl)
      · rw [hJD]
        exact foldl_join_reach hJJ hDD hJD hDJ l J (Or.inl rfl) hall2
          (Or.inl rfl)
      · rw [hDJ]
        exact foldl_join_reach hJJ hDD hJD hDJ l J (Or.inl rfl) hall2
          (Or.inl rfl)
      · rw [hDD]
        refine foldl_join_reach hJJ hDD hJD hDJ l D (Or.inr rfl) hall2 ?_
        rcases hmem with h3 | h3
        · exact Or.inl (h1 ▸ h3)
        · rcases List.mem_cons.mp h3 with h4 | h4
          · exact Or.inl (h4.trans h2).symm
          · exact Or.inr h4

theorem joinList_eq_of_reach {J : Schema} (hJ : SortedCols J)
    (g : (String × String) → Bool) (l : List Schema)
    (hall : ∀ s ∈ l, s = J ∨ s = J.filter g) (hmem : J ∈ l) :
    joinList l = Option.some J := by
  have hDsorted : SortedCols (J.filter g) := List.Pairwise.filter g hJ
  have hJJ := joinSchema_self hJ
  have hDD := joinSchema_of_mem hDsorted (fun x hx => hx)
  have hJD : joinSchema J (J.filter g) = Option.some J :=
    joinSchema_of_mem hJ (fun x hx => List.mem_of_mem_filter hx)
  have hDJ := joinSchema_filter_self hJ g
  cases l with
  | nil => exact absurd hmem (List.not_mem_nil J)
  | cons s l =>
      rw [joinList]
      refine foldl_join_reach hJJ hDD hJD hDJ l s
        (hall s (List.mem_cons_self s l))
        (fun y hy => hall y (List.mem_cons_of_mem _ hy)) ?_
      rcases List.mem_cons.mp hmem with h2 | h2
      · exact Or.inl h2.symm
      · exact Or.inr h2

theorem joinList_allD {J : Schema} (hJ : SortedCols J)
    (g : (String × String) → Bool) (l : List Schema)
    (hall : ∀ s ∈ l, s = J.filter g) (hne : l ≠ []) :
    joinList l = Option.some (J.filter g) := by
  cases l with
  | nil => exact absurd rfl hne
  | cons s l =>
      have hDsorted : SortedCols (J.filter g) := List.Pairwise.filter g hJ
      have hDD := joinSchema_of_mem hDsorted (fun x hx => hx)
      have hs := hall s (List.mem_cons_self s l)
      rw [joinList, hs]
      exact foldl_join_allD hDD l (fun y hy => hall y (List.mem_cons_of_mem _ hy))

theorem addMissing_covered {shards : List LockShard} {pre : Schema}
    {tts : List ShardId}
    (h : ∀ t ∈ tts, ∃ sh ∈ shards, shardHasId t sh) :
    addMissing shards pre tts = shards := by
  rw [addMissing]
  have hfil :
      tts.filter (fun t => decide (¬ ∃ sh ∈ shards, shardHasId t sh)) = [] := by
    apply List.filter_eq_nil_iff.mpr
    intro t ht
    simp [h t ht]
  rw [hfil]
  simp

theorem TrySync_eq_of_found {L : Lock} {info : Info} {tts : List ShardId}
    {sh0 : LockShard}
    (hcov : addMissing L.shards info.preSchema tts = L.shards)
    (hfind : L.shards.find? (fun sh => decide (infoKeyOf info sh)) =
      Option.some sh0)
    (hver : ¬ info.version < sh0.version) :
    L.TrySync info tts = syncStep L info (L.shards.map (updShard info)) := by
  rw [Lock.TrySync]
  simp only [hcov, hfind, hver, if_false]

end Optimism

namespace Optimism

theorem TrySync_drop_pending {L : Lock} {info : Info} {tts : List ShardId}
    {J : Schema} {g : (String × String) → Bool}
    (hJ : SortedCols J) (hne : J.filter g ≠ J)
    (htts : ∀ t ∈ tts, ∃ sh ∈ L.shards, shardHasId t sh)
    (hfound : ∃ sh0, L.shards.find? (fun sh => decide (infoKeyOf info sh)) =
      Option.some sh0 ∧ ¬ info.version < sh0.version)
    (hpost : postOf info = J.filter g)
    (hothers : ∀ sh ∈ L.shards, ¬ infoKeyOf info sh →
      sh.schema = J ∨ sh.schema = J.filter g)
    (hret : ∃ sh ∈ L.shards, ¬ infoKeyOf info sh ∧ sh.schema = J) :
    (L.TrySync info tts).2 = ([], ConflictStage.none) := by
  obtain ⟨sh0, hfind, hver⟩ := hfound
  rw [TrySync_eq_of_found (addMissing_covered htts) hfind hver]
  have hcj : computeJoined (L.shards.map (updShard info)) = Option.some J := by
    rw [computeJoined, List.map_map]
    apply joinList_eq_of_reach hJ g
    · intro s hs
      obtain ⟨sh, hsh, rfl⟩ := List.mem_map.mp hs
      by_cases hk : infoKeyOf info sh
      · right
        simp [Function.comp, updShard, hk, hpost]
      · rcases hothers sh hsh hk with h1 | h1
        · left
          simp [Function.comp, updShard, hk, h1]
        · right
          simp [Function.comp, updShard, hk, h1]
    · obtain ⟨sh, hsh, hk, hs⟩ := hret
      apply List.mem_map.mpr
      refine ⟨sh, hsh, ?_⟩
      simp [Function.comp, updShard, hk, hs]
  rw [syncStep, hcj]
  have : ¬ postOf info = J := by
    rw [hpost]
    exact hne
  simp [this]

theorem TrySync_drop_final {L : Lock} {info : Info} {tts : List ShardId}
    {J : Schema} {g : (String × String) → Bool}
    (hJ : SortedCols J)
    (htts : ∀ t ∈ tts, ∃ sh ∈ L.shards, shardHasId t sh)
    (hfound : ∃ sh0, L.shards.find? (fun sh => decide (infoKeyOf info sh)) =
      Option.some sh0 ∧ ¬ info.version < sh0.version)
    (hpost : postOf info = J.filter g)
    (hothers : ∀ sh ∈ L.shards, ¬ infoKeyOf info sh →
      sh.schema = J.filter g) :
    (L.TrySync info tts).2 = (info.DDLs, ConflictStage.none) := by
  obtain ⟨sh0, hfind, hver⟩ := hfound
  rw [TrySync_eq_of_found (addMissing_covered htts) hfind hver]
  have hne0 : L.shards ≠ [] :=
    List.ne_nil_of_mem (List.mem_of_find?_eq_some hfind)
  have hcj : computeJoined (L.shards.map (updShard info)) =
      Option.some (J.filter g) := by
    rw [computeJoined, List.map_map]
    apply joinList_allD hJ g
    · intro s hs
      obtain ⟨sh, hsh, rfl⟩ := List.mem_map.mp hs
      by_cases hk : infoKeyOf info sh
      · simp [Function.comp, updShard, hk, hpost]
      · simp [Function.comp, updShard, hk, hothers sh hsh hk]
    · simp [hne0]
  rw [syncStep, hcj]
  simp [hpost]

theorem lookup_filter_ne (lid : String) (ls : List (String × Lock)) :
    lookupLock lid (ls.filter (fun kv => kv.1 != lid)) = Option.none := by
  have hfind : (ls.filter (fun kv => kv.1 != lid)).find?
      (fun kv => kv.1 == lid) = Option.none := by
    rw [List.find?_eq_none]
    intro x hx
    have h2 := (List.mem_filter.mp hx).2
    simp at h2 ⊢
    exact h2
  rw [lookupLock, hfind]
  rfl

theorem lookup_updateLockIn (lid : String) (f : Lock → Lock) :
    ∀ (ls : List (String × Lock)),
      lookupLock lid (updateLockIn lid f ls) = (lookupLock lid ls).map f
  | [] => rfl
  | kv :: ls => by
      by_cases h : kv.1 = lid
      · simp [lookupLock, updateLockIn, List.find?_cons, h]
      · have hprev := lookup_updateLockIn lid f ls
        have hb : (kv.1 == lid) = false := by simp [h]
        simp only [lookupLock, updateLockIn, List.map_cons] at hprev ⊢
        rw [if_neg (by simp [h])]
        simp only [List.find?_cons, hb]
        exact hprev

end Optimism

namespace Optimism

/-- C1 counterexample: in the conflict scenario, after shard 2's conflicting
report the joined schema is `(id, c1 TEXT)`; a re-put by shard 2 whose
post-schema equals that joined schema (as the claim's wording demands) yields
an operation with `ConflictStage=None` but with the re-put's own DDLs, not
empty DDLs — the claim as stated is false at this input. -/
theorem c1_counterexample_post_matches_joined :
    (handleInfoPut confSt1 confTts confI2).2.DDLs = [] ∧
    (handleInfoPut confSt1 confTts confI2).2.conflictStage =
      ConflictStage.detected ∧
    (lookupLock (lockIDof cTask "foo" "bar") confSt2.locks).map Lock.joined =
      Option.some (postOf confI3m) ∧
    (handleInfoPut confSt2 confTts confI3m).2.conflictStage =
      ConflictStage.none ∧
    ¬ (handleInfoPut confSt2 confTts confI3m).2.DDLs = [] := by
  decide

/-- C1 (amended): when two shards of the same lock report infos whose schemas
cannot be joined (`c1 TEXT` vs `c1 DATETIME`), the operation written for the
conflicting shard has empty DDLs and `ConflictStage=Detected`; if that shard
later re-puts an info whose post-schema joins with the joined schema without
conflict but has not reached it (in the exercised test the re-put post-schema
is the original schema without `c1`), the next operation written for it has
`ConflictStage=None` and empty DDLs. -/
theorem c1_conflict_detected_then_clean_resync :
    (handleInfoPut confSt1 confTts confI2).2.DDLs = [] ∧
    (handleInfoPut confSt1 confTts confI2).2.conflictStage =
      ConflictStage.detected ∧
    (lookupLock (lockIDof cTask "foo" "bar") confSt2.locks).map Lock.joined =
      Option.some tiText ∧
    joinSchema tiText (postOf confI3) = Option.some tiText ∧
    postOf confI3 ≠ tiText ∧
    (handleInfoPut confSt2 confTts confI3).2.DDLs = [] ∧
    (handleInfoPut confSt2 confTts confI3).2.conflictStage =
      ConflictStage.none := by
  decide

/-- C2: for a drop-column lock — every shard's last-known schema is either the
joined schema `J` (still retaining the column) or `J` with column `c` dropped
— the `ShowLocks` entry lists exactly the dropped shards (whose schema
differs from the joined schema) in `Unsynced` and the retaining shards in
`Synced`. -/
theorem c2_drop_column_show_locks (L : Lock) (lid : String) (J : Schema)
    (c : String) (hjoined : L.joined = J) (hne : dropCol c J ≠ J)
    (hpart : ∀ sh ∈ L.shards, sh.schema = J ∨ sh.schema = dropCol c J) :
    (∀ sh ∈ L.shards,
      (sh.schema = dropCol c J →
        shardName sh ∈ (showLockEntry lid L).Unsynced) ∧
      (sh.schema = J → shardName sh ∈ (showLockEntry lid L).Synced)) ∧
    (∀ n ∈ (showLockEntry lid L).Unsynced,
      ∃ sh ∈ L.shards, shardName sh = n ∧ sh.schema = dropCol c J) ∧
    (∀ n ∈ (showLockEntry lid L).Synced,
      ∃ sh ∈ L.shards, shardName sh = n ∧ sh.schema = J) := by
  refine ⟨?_, ?_, ?_⟩
  · intro sh hsh
    constructor
    · intro hdrop
      have hnes : ¬ sh.schema = L.joined := by
        rw [hjoined, hdrop]
        exact hne
      simp only [showLockEntry, lockUnsyncedList, sortStrings,
        List.mem_insertionSort]
      apply List.mem_map.mpr
      refine ⟨sh, ?_, rfl⟩
      apply List.mem_filter.mpr
      exact ⟨hsh, by simpa using hnes⟩
    · intro hJs
      have heqs : sh.schema = L.joined := by rw [hjoined]; exact hJs
      simp only [showLockEntry, lockSyncedList, sortStrings,
        List.mem_insertionSort]
      apply List.mem_map.mpr
      refine ⟨sh, ?_, rfl⟩
      apply List.mem_filter.mpr
      exact ⟨hsh, by simpa using heqs⟩
  · intro n hn
    simp only [showLockEntry, lockUnsyncedList, sortStrings,
      List.mem_insertionSort] at hn
    obtain ⟨sh, hsh, rfl⟩ := List.mem_map.mp hn
    obtain ⟨hmem, hpred⟩ := List.mem_filter.mp hsh
    refine ⟨sh, hmem, rfl, ?_⟩
    have hnes : ¬ sh.schema = J := by
      rw [← hjoined]
      simpa using hpred
    rcases hpart sh hmem with h1 | h1
    · exact absurd h1 hnes
    · exact h1
  · intro n hn
    simp only [showLockEntry, lockSyncedList, sortStrings,
      List.mem_insertionSort] at hn
    obtain ⟨sh, hsh, rfl⟩ := List.mem_map.mp hn
    obtain ⟨hmem, hpred⟩ := List.mem_filter.mp hsh
    refine ⟨sh, hmem, rfl, ?_⟩
    rw [← hjoined]
    simpa using hpred

/-- C2 witness: in the drop-column lock of the exercised scenario, the dropped
shard appears in `Unsynced` and the retaining shard in `Synced`. -/
theorem c2_drop_column_show_locks_witness :
    shardName ⟨cSource1, "foo", "bar-1", ti1, true, false, 1⟩ ∈
      (showLockEntry (lockIDof cTask "foo" "bar") dropLock1).Unsynced ∧
    shardName ⟨cSource2, "foo-2", "bar-3", ti2, false, false, 0⟩ ∈
      (showLockEntry (lockIDof cTask "foo" "bar") dropLock1).Synced := by
  have h := c2_drop_column_show_locks dropLock1 (lockIDof cTask "foo" "bar")
    ti2 "c2" (by decide) (by decide) (by decide)
  exact ⟨(h.1 _ (by decide)).1 (by decide), (h.1 _ (by decide)).2 (by decide)⟩

end Optimism

namespace Optimism

/-- C3: for a drop-column lock (column `c` of joined schema `J`), the
operation written for the reporting shard whose post-schema is `J` minus `c`
carries empty DDLs with `ConflictStage=None` while some shard still retains
the column; and when every other shard has already dropped the column, the
reporting (final) shard's operation carries the drop-column DDLs of its own
report — the operation the retaining shard receives once it drops. -/
theorem c3_drop_column_operations (st : OptimistState) (tts : List ShardId)
    (info : Info) (L : Lock) (J : Schema) (c : String)
    (hlook : lookupLock (lockIDof info.task info.downSchema info.downTable)
      st.locks = Option.some L)
    (hJ : SortedCols J) (hne : dropCol c J ≠ J)
    (htts : ∀ t ∈ tts, ∃ sh ∈ L.shards, shardHasId t sh)
    (hfound : ∃ sh0, L.shards.find? (fun sh => decide (infoKeyOf info sh)) =
      Option.some sh0 ∧ ¬ info.version < sh0.version)
    (hpost : postOf info = dropCol c J) :
    ((∀ sh ∈ L.shards, ¬ infoKeyOf info sh →
        sh.schema = J ∨ sh.schema = dropCol c J) →
      (∃ sh ∈ L.shards, ¬ infoKeyOf info sh ∧ sh.schema = J) →
      (handleInfoPut st tts info).2.DDLs = [] ∧
        (handleInfoPut st tts info).2.conflictStage = ConflictStage.none) ∧
    ((∀ sh ∈ L.shards, ¬ infoKeyOf info sh → sh.schema = dropCol c J) →
      (handleInfoPut st tts info).2.DDLs = info.DDLs ∧
        (handleInfoPut st tts info).2.conflictStage = ConflictStage.none) := by
  have hop2 : (handleInfoPut st tts info).2 =
      { task := info.task, source := info.source, upSchema := info.upSchema,
        upTable := info.upTable, DDLs := (L.TrySync info tts).2.1,
        conflictStage := (L.TrySync info tts).2.2, done := false } := by
    simp only [handleInfoPut, hlook]
  constructor
  · intro h1 h2
    have hts : (L.TrySync info tts).2 = ([], ConflictStage.none) :=
      TrySync_drop_pending hJ hne htts hfound hpost h1 h2
    rw [hop2]
    exact ⟨congrArg Prod.fst hts, congrArg Prod.snd hts⟩
  · intro h1
    have hts : (L.TrySync info tts).2 = (info.DDLs, ConflictStage.none) :=
      TrySync_drop_final hJ htts hfound hpost h1
    rw [hop2]
    exact ⟨congrArg Prod.fst hts, congrArg Prod.snd hts⟩

/-- C3 witness: in the exercised scenario the drop initiator's operation is
`([], None)` while the other shard retains the column, and the final
dropper's operation carries the drop DDL. -/
theorem c3_drop_column_operations_witness :
    ((handleInfoPut stDrop0 dropTts dropI31).2.DDLs = [] ∧
      (handleInfoPut stDrop0 dropTts dropI31).2.conflictStage =
        ConflictStage.none) ∧
    ((handleInfoPut stDrop1 dropTts dropI33).2.DDLs = dropI33.DDLs ∧
      (handleInfoPut stDrop1 dropTts dropI33).2.conflictStage =
        ConflictStage.none) := by
  constructor
  · exact (c3_drop_column_operations stDrop0 dropTts dropI31 dropLock0 ti2 "c2"
      (by decide) (by decide) (by decide)
      (fun t ht => by
        fin_cases ht
        · exact ⟨⟨cSource1, "foo", "bar-1", ti2, false, false, 0⟩, by decide,
            by decide⟩
        · exact ⟨⟨cSource2, "foo-2", "bar-3", ti2, false, false, 0⟩, by decide,
            by decide⟩)
      ⟨⟨cSource1, "foo", "bar-1", ti2, false, false, 0⟩, by decide, by decide⟩
      (by decide)).1 (by decide)
      ⟨⟨cSource2, "foo-2", "bar-3", ti2, false, false, 0⟩, by decide, by decide,
        by decide⟩
  · exact (c3_drop_column_operations stDrop1 dropTts dropI33 dropLock1 ti2 "c2"
      (by decide) (by decide) (by decide)
      (fun t ht => by
        fin_cases ht
        · exact ⟨⟨cSource1, "foo", "bar-1", ti1, true, false, 1⟩, by decide,
            by decide⟩
        · exact ⟨⟨cSource2, "foo-2", "bar-3", ti2, false, false, 0⟩, by decide,
            by decide⟩)
      ⟨⟨cSource2, "foo-2", "bar-3", ti2, false, false, 0⟩, by decide, by decide⟩
      (by decide)).2 (by decide)

/-- C4: `sortInfos` returns the snapshot ordered by ascending store revision —
each `(source, upSchema, upTable)` group of the snapshot is a single info, so
groups are ordered by the revision of their latest member; in particular, for
the put history A (shard1.bar-1, v1, r1), B (shard1.bar-2, v1, r2), C
(shard2.bar-2, v1, r3), then A again (v2, r4), the snapshot sorts to
`[B, C, A]`. -/
theorem c4_sort_infos (l : List Info) :
    List.Sorted infoRevLe (sortInfos l) ∧ List.Perm (sortInfos l) l ∧
    sortInfos [sortInfoA, sortInfoB, sortInfoC] =
      [sortInfoB, sortInfoC, sortInfoA] :=
  ⟨List.sorted_insertionSort infoRevLe l, List.perm_insertionSort infoRevLe l,
    by decide⟩

end Optimism

namespace Optimism

/-- C5: once a `Done=true` acknowledgement makes a lock resolved — every shard
ready, done, and at the joined schema — the coordinator removes the lock from
the lock table and no info or operation key of that lock's target remains in
the store. -/
theorem c5_resolution_completeness (st : OptimistState) (op : Operation)
    (lid : String) (L : Lock)
    (hdone : op.done = true)
    (hfind : st.locks.find? (fun kv => decide (opMatchesLock op kv)) =
      Option.some (lid, L))
    (hres : ∀ sh ∈ (L.MarkDone op.source op.upSchema op.upTable).shards,
      sh.ready = true ∧ sh.done = true ∧ sh.schema = L.joined) :
    lookupLock lid (handleOperationPut st op).locks = Option.none ∧
    (∀ kv ∈ (handleOperationPut st op).infos, ¬ targetOf L kv.2) ∧
    (∀ kv ∈ (handleOperationPut st op).ops, ¬ keyInLock L kv.1) := by
  have hres2 :
      (L.MarkDone op.source op.upSchema op.upTable).IsResolved = true := by
    rw [Lock.IsResolved]
    apply List.all_eq_true.mpr
    intro sh hsh
    obtain ⟨h1, h2, h3⟩ := hres sh hsh
    simp [Lock.MarkDone, h1, h2, h3]
  have hst : handleOperationPut st op =
      { locks := st.locks.filter (fun kv2 => kv2.1 != lid),
        infos := st.infos.filter (fun e => decide (¬ targetOf L e.2)),
        ops := st.ops.filter (fun e => decide (¬ keyInLock L e.1)) } := by
    rw [handleOperationPut]
    simp only [hdone, if_true, hfind, hres2]
  rw [hst]
  refine ⟨lookup_filter_ne lid st.locks, ?_, ?_⟩
  · intro kv hkv
    have h2 := (List.mem_filter.mp hkv).2
    simpa using h2
  · intro kv hkv
    have h2 := (List.mem_filter.mp hkv).2
    simpa using h2

/-- C5 witness: in the drop-column scenario, the final acknowledgement
resolves the lock; the lock disappears and the store keeps no info or
operation key for the target. -/
theorem c5_resolution_completeness_witness :
    lookupLock (lockIDof cTask "foo" "bar")
      (handleOperationPut resSt resOp).locks = Option.none ∧
    (∀ kv ∈ (handleOperationPut resSt resOp).infos, ¬ targetOf resLock kv.2) ∧
    (∀ kv ∈ (handleOperationPut resSt resOp).ops, ¬ keyInLock resLock kv.1) :=
  c5_resolution_completeness resSt resOp (lockIDof cTask "foo" "bar") resLock
    rfl (by decide) (by decide)

end Optimism

namespace Optimism

/-- C6: every `DDLLock` returned by `ShowLocks` has `Mode = "ShardOptimistic"`,
`Owner = ""`, null `DDLs`, and lexicographically sorted `Synced`/`Unsynced`
lists; an empty task matches all tasks and an empty source list all sources
(every lock is listed); a task or a source list matching no lock yields an
empty result. -/
theorem c6_show_locks_shape (locks : List (String × Lock)) (task : String)
    (sources : List String) :
    (∀ dl ∈ ShowLocks task sources locks,
      dl.Mode = ShardOptimistic ∧ dl.Owner = "" ∧ dl.DDLs = Option.none ∧
      List.Sorted strLe dl.Synced ∧ List.Sorted strLe dl.Unsynced) ∧
    (ShowLocks "" [] locks).length = locks.length ∧
    (task ≠ "" → (∀ kv ∈ locks, kv.2.task ≠ task) →
      ShowLocks task sources locks = []) ∧
    (sources ≠ [] → (∀ kv ∈ locks, ∀ sh ∈ kv.2.shards, sh.source ∉ sources) →
      ShowLocks task sources locks = []) := by
  refine ⟨?_, ?_, ?_, ?_⟩
  · intro dl hdl
    rw [ShowLocks] at hdl
    simp only [List.mem_insertionSort] at hdl
    obtain ⟨kv, hkv, rfl⟩ := List.mem_map.mp hdl
    exact ⟨rfl, rfl, rfl, List.sorted_insertionSort strLe _,
      List.sorted_insertionSort strLe _⟩
  · have hfil : locks.filter (fun kv => decide (lockMatches "" [] kv)) =
        locks := by
      apply List.filter_eq_self.mpr
      intro kv hkv
      simp [lockMatches]
    rw [ShowLocks, List.length_insertionSort, List.length_map, hfil]
  · intro ht hnone
    have hfil : locks.filter (fun kv => decide (lockMatches task sources kv)) =
        [] := by
      apply List.filter_eq_nil_iff.mpr
      intro kv hkv h
      have hm := of_decide_eq_true h
      rcases hm.1 with h2 | h2
      · exact ht h2
      · exact hnone kv hkv h2
    rw [ShowLocks, hfil]
    rfl
  · intro hs hnone
    have hfil : locks.filter (fun kv => decide (lockMatches task sources kv)) =
        [] := by
      apply List.filter_eq_nil_iff.mpr
      intro kv hkv h
      have hm := of_decide_eq_true h
      rcases hm.2 with h2 | h2
      · exact hs h2
      · obtain ⟨sh, hsh, hmem⟩ := h2
        exact hnone kv hkv sh hsh hmem
    rw [ShowLocks, hfil]
    rfl

/-- C6 witness: on a one-lock table, the single entry has the fixed shape,
an empty filter lists it, and an unknown task or source yields no entry. -/
theorem c6_show_locks_shape_witness :
    ((showLockEntry (lockIDof cTask "foo" "bar") dropLock1).Mode =
        ShardOptimistic ∧
      (showLockEntry (lockIDof cTask "foo" "bar") dropLock1).Owner = "" ∧
      (showLockEntry (lockIDof cTask "foo" "bar") dropLock1).DDLs =
        Option.none ∧
      List.Sorted strLe
        (showLockEntry (lockIDof cTask "foo" "bar") dropLock1).Synced ∧
      List.Sorted strLe
        (showLockEntry (lockIDof cTask "foo" "bar") dropLock1).Unsynced) ∧
    (ShowLocks "" [] locks0).length = locks0.length ∧
    ShowLocks "not-exist" [] locks0 = [] ∧
    ShowLocks "" ["not-exist"] locks0 = [] :=
  ⟨(c6_show_locks_shape locks0 "" []).1 _ (by decide),
    (c6_show_locks_shape locks0 "" []).2.1,
    (c6_show_locks_shape locks0 "not-exist" []).2.2.1 (by decide) (by decide),
    (c6_show_locks_shape locks0 "" ["not-exist"]).2.2.2 (by decide)
      (by decide)⟩

/-- C7: when `PutSourceTablesDeleteInfo` removes a shard's table while that
shard participates in a lock, the coordinator removes the shard from the lock
(and its info key from the store) and treats it as synced-by-absence:
`IsSynced` is true as soon as every remaining shard is ready. -/
theorem c7_delete_synced_by_absence (st : OptimistState) (info : Info)
    (L : Lock)
    (hlook : lookupLock (lockIDof info.task info.downSchema info.downTable)
      st.locks = Option.some L) :
    lookupLock (lockIDof info.task info.downSchema info.downTable)
        (handleSourceTablesDeleteInfo st info).locks =
      Option.some (L.RemoveTable info.source info.upSchema info.upTable) ∧
    (∀ sh ∈ (L.RemoveTable info.source info.upSchema info.upTable).shards,
      ¬ shardHasKey sh info.source info.upSchema info.upTable) ∧
    ((∀ sh ∈ L.shards,
        ¬ shardHasKey sh info.source info.upSchema info.upTable →
        sh.ready = true) →
      ((L.RemoveTable info.source info.upSchema info.upTable).IsSynced).1 =
        true) ∧
    (∀ kv ∈ (handleSourceTablesDeleteInfo st info).infos,
      kv.1 ≠ infoStoreKey info) := by
  refine ⟨?_, ?_, ?_, ?_⟩
  · rw [handleSourceTablesDeleteInfo]
    rw [lookup_updateLockIn
      (lockIDof info.task info.downSchema info.downTable)
      (fun L2 => L2.RemoveTable info.source info.upSchema info.upTable)
      st.locks, hlook]
    rfl
  · intro sh hsh
    rw [Lock.RemoveTable] at hsh
    have h2 := (List.mem_filter.mp hsh).2
    simpa using h2
  · intro h
    rw [Lock.IsSynced]
    apply List.all_eq_true.mpr
    intro sh hsh
    rw [Lock.RemoveTable] at hsh
    have hm := List.mem_filter.mp hsh
    have hr := h sh hm.1 (by simpa using hm.2)
    simp [hr]
  · intro kv hkv
    rw [handleSourceTablesDeleteInfo] at hkv
    have h2 := (List.mem_filter.mp hkv).2
    simpa using h2

/-- C7 witness: deleting the not-yet-ready shard `bar-2` from the three-shard
lock leaves it removed from the lock and the lock synced. -/
theorem c7_delete_synced_by_absence_witness :
    lookupLock (lockIDof cTask "foo" "bar")
        (handleSourceTablesDeleteInfo delSt delInfo).locks =
      Option.some (delLock.RemoveTable cSource1 "foo" "bar-2") ∧
    ((delLock.RemoveTable cSource1 "foo" "bar-2").IsSynced).1 = true := by
  have h := c7_delete_synced_by_absence delSt delInfo delLock (by decide)
  exact ⟨h.1, h.2.2.1 (by decide)⟩

end Optimism
